import Mathlib

/-!
Verification of the Thalionyx Fragment Store and Pattern/Recommendation
Engine.  The definitions below are a shallow embedding of
`src/client/src/lib/videoFilters.ts` (the `IndexedDBManager` class) and
`src/unnamed/part_004` (the `PatternRecognitionEngine` class), over the data
model of `src/client/src/types/reflection.ts`.

Modelling conventions:
* JS numbers are modelled as `ℚ` (exact rational arithmetic).
* A binary `Blob` is modelled by an opaque content value (`ℕ`); a field of
  type `Blob` that can hold `null` at runtime is modelled as `Option Blob`.
* `Date.now()` and `Math.random()` are threaded explicitly through an `Env`
  record; they are used by the source only for insight ids, insight
  timestamps and the recency term of the mood score.
* JS number formatting (`toFixed`, template interpolation) is abstracted by
  `ratStr`, a deterministic injective rendering of a rational.  No claim
  depends on the exact digits produced.
* The `correlation` returned by `calculateTrend` is `|num| / sqrt(dx*dy)`
  in the source; since the square root of a rational is irrational we carry
  its square (`num^2 / (dx*dy)`, with the source's `|| 0` guard when the
  denominator vanishes).  The value is only ever stored in the informational
  `confidence` field of growth insights and no claim depends on it.
-/

/-- Opaque binary payload content (video/audio data). -/
abbrev Blob := Nat

/-- Deterministic rendering of a rational, standing in for JS number
formatting in generated description and id strings. -/
def ratStr (q : ℚ) : String := toString q.num ++ "/" ++ toString q.den

/-- JS `Math.round`: round half away from zero toward positive infinity. -/
def jsRound (q : ℚ) : ℤ := ⌊q + 1/2⌋

/-- First-occurrence deduplication; models the insertion-order key set of a
JS `Map` built by repeated `set` calls. -/
def dedupFirst : List String → List String
  | [] => []
  | x :: xs => x :: (dedupFirst xs).filter (fun y => y ≠ x)

/-- JS `String.prototype.includes`: substring test. -/
def strIncludes (s sub : String) : Bool := decide (sub.toList <:+: s.toList)

/-- `EmotionTag` from `types/reflection.ts`. -/
structure EmotionTag where
  emotion : String
  intensity : ℚ
  confidence : ℚ
  timestamp : ℚ
deriving DecidableEq

/-- `FragmentRating` from `types/reflection.ts`. -/
structure FragmentRating where
  id : String
  fragmentId : String
  helpful : Bool
  resonance : ℚ
  timestamp : ℚ
  context : Option String
deriving DecidableEq

/-- `FragmentMetadata` from `types/reflection.ts`. -/
structure FragmentMetadata where
  mood : String
  energy : ℚ
  clarity : ℚ
  facialExpression : Option String
  voiceTone : Option String
  keywords : List String
deriving DecidableEq

/-- `FragmentVariation` from `types/reflection.ts`; `filterSettings`
(a JS `Record<string, any>`) is modelled as a keyed list of numbers. -/
structure FragmentVariation where
  id : String
  parentId : String
  filterType : String
  filterSettings : List (String × ℚ)
  blob : Option Blob
  timestamp : ℚ
deriving DecidableEq

/-- `ResponseFragment` from `types/reflection.ts`. -/
structure ResponseFragment where
  id : String
  parentId : String
  blob : Option Blob
  timestamp : ℚ
  responseType : String
  notes : Option String
deriving DecidableEq

/-- `VideoFragment` from `types/reflection.ts`.  The `blob` field is
`Option Blob` because the stored metadata record holds `null` there. -/
structure VideoFragment where
  id : String
  timestamp : ℚ
  duration : ℚ
  blob : Option Blob
  thumbnail : Option String
  title : Option String
  notes : Option String
  tags : List EmotionTag
  variations : List FragmentVariation
  responses : List ResponseFragment
  ratings : List FragmentRating
  metadata : FragmentMetadata
deriving DecidableEq

/-- The four `PatternInsight.type` values. -/
inductive PType where
  | emotional_cycle
  | trigger_pattern
  | growth_trend
  | resonance_cluster
deriving DecidableEq

/-- `PatternInsight` from `types/reflection.ts`. -/
structure PatternInsight where
  id : String
  type : PType
  description : String
  confidence : ℚ
  relatedFragments : List String
  timestamp : ℚ
deriving DecidableEq

/-- The four `RecommendationMatch.type` values. -/
inductive RType where
  | mood_match
  | pattern_completion
  | contrast_learning
  | growth_opportunity
deriving DecidableEq

/-- `RecommendationMatch` from `types/reflection.ts`. -/
structure RecommendationMatch where
  fragmentId : String
  score : ℚ
  reason : String
  type : RType
deriving DecidableEq

/-! ## Fragment Store (`IndexedDBManager` in `videoFilters.ts`)

The two object stores that matter to the claims are modelled as keyed maps:
`frags` is the `fragments` store (metadata records, blobs nulled) and
`blobs` is the `videoBlobs` store.  An entry of `blobs` is the stored
record's `blob` field, so `some none` means "record present, `blob: null`"
while `none` means "no record". -/

structure DB where
  frags : String → Option VideoFragment
  blobs : String → Option (Option Blob)

/-- The store errors relevant to the claims.  `notReady` models the
`throw new Error('Database not initialized')` guard; `payloadMissing`
models the spec's `PayloadMissing` taxonomy entry (the source never raises
it -- see the claim about missing payloads). -/
inductive StoreErr where
  | notReady
  | payloadMissing
deriving DecidableEq

/-- `store.put` on the `videoBlobs` store (keyPath `id`). -/
def putBlob (db : DB) (id : String) (b : Option Blob) : DB :=
  { db with blobs := fun s => if s = id then some b else db.blobs s }

/-- `store.put` on the `fragments` store (keyPath `id`). -/
def putFrag (db : DB) (m : VideoFragment) : DB :=
  { db with frags := fun s => if s = m.id then some m else db.frags s }

/-- `store.delete` on the `videoBlobs` store. -/
def delBlob (db : DB) (id : String) : DB :=
  { db with blobs := fun s => if s = id then none else db.blobs s }

/-- `store.delete` on the `fragments` store. -/
def delFrag (db : DB) (id : String) : DB :=
  { db with frags := fun s => if s = id then none else db.frags s }

/-- `getVideoBlob`: `request.result?.blob || null` -- a missing record or a
stored null both resolve to `none`, never to an error. -/
def getVideoBlob (db : DB) (id : String) : Option Blob :=
  match db.blobs id with
  | some b => b
  | none => none

/-- The metadata record written by `saveFragment`: the fragment with the
own, variation and response blob references nulled out. -/
def stripBlobs (f : VideoFragment) : VideoFragment :=
  { f with
    blob := none
    variations := f.variations.map (fun v => { v with blob := none })
    responses := f.responses.map (fun r => { r with blob := none }) }

/-- `getFragment`'s rehydration step: restore the own, each variation's and
each response's blob from the `videoBlobs` store. -/
def rehydrate (db : DB) (m : VideoFragment) : VideoFragment :=
  { m with
    blob := getVideoBlob db m.id
    variations := m.variations.map (fun v => { v with blob := getVideoBlob db v.id })
    responses := m.responses.map (fun r => { r with blob := getVideoBlob db r.id }) }

/-- The blob writes performed by `saveFragment`, in source order: the
fragment's own blob, then each variation's, then each response's. -/
def savePuts (f : VideoFragment) : List (String × Option Blob) :=
  (f.id, f.blob) ::
    (f.variations.map (fun v => (v.id, v.blob)) ++ f.responses.map (fun r => (r.id, r.blob)))

/-- One primitive write of `saveFragment` (each runs in its own IndexedDB
transaction in the source). -/
inductive SaveStep where
  | blobPut (id : String) (b : Option Blob)
  | metaPut (m : VideoFragment)

def applyStep (db : DB) : SaveStep → DB
  | .blobPut id b => putBlob db id b
  | .metaPut m => putFrag db m

/-- The full write sequence of `saveFragment`: all blob puts, then the
metadata put last. -/
def saveSteps (f : VideoFragment) : List SaveStep :=
  (savePuts f).map (fun p => .blobPut p.1 p.2) ++ [.metaPut (stripBlobs f)]

/-- `saveFragment` on an initialized store, success path. -/
def saveFragmentOk (db : DB) (f : VideoFragment) : DB :=
  (saveSteps f).foldl applyStep db

/-- State of the store when `saveFragment` fails at write index `k`
(`k < (saveSteps f).length`): the awaited writes before `k` have committed,
the failing write aborts its own transaction, nothing after `k` runs. -/
def saveFragmentFailAt (db : DB) (f : VideoFragment) (k : ℕ) : DB :=
  ((saveSteps f).take k).foldl applyStep db

/-- `getFragment` on an initialized store: load the metadata record, then
rehydrate every payload reference; `null` result when no record exists. -/
def getFragmentDB (db : DB) (id : String) : Option VideoFragment :=
  (db.frags id).map (rehydrate db)

/-- `deleteFragment` on an initialized store: load the fragment (no-op when
absent), delete the own blob, each variation's and each response's blob,
then delete the metadata record. -/
def deleteFragmentOk (db : DB) (id : String) : DB :=
  match db.frags id with
  | none => db
  | some m =>
    let f := rehydrate db m
    let d1 := delBlob db id
    let d2 := f.variations.foldl (fun d v => delBlob d v.id) d1
    let d3 := f.responses.foldl (fun d r => delBlob d r.id) d2
    delFrag d3 id

/-- `getFragment` including the `Database not initialized` guard. -/
def getFragment : Option DB → String → Except StoreErr (Option VideoFragment)
  | none, _ => .error .notReady
  | some db, id => .ok (getFragmentDB db id)

/-- `saveFragment` including the `Database not initialized` guard
(success path). -/
def saveFragment : Option DB → VideoFragment → Except StoreErr DB
  | none, _ => .error .notReady
  | some db, f => .ok (saveFragmentOk db f)

/-- `deleteFragment` including the `Database not initialized` guard. -/
def deleteFragment : Option DB → String → Except StoreErr DB
  | none, _ => .error .notReady
  | some db, id => .ok (deleteFragmentOk db id)

/-- All payload keys a fragment's save writes / its stored record
references: own id, variation ids, response ids. -/
def payloadIds (f : VideoFragment) : List String :=
  f.id :: (f.variations.map (fun v => v.id) ++ f.responses.map (fun r => r.id))

/-- The store with no records, after `init` completes. -/
def emptyDB : DB := ⟨fun _ => none, fun _ => none⟩

/-! ## Pattern Engine (`PatternRecognitionEngine` in `src/unnamed/part_004`) -/

/-- The engine's external inputs: `Date.now()` and a stream of
`Math.random()` draws (used only in generated insight ids / timestamps and
in the mood-score recency term). -/
structure Env where
  nowMs : ℚ
  rand : ℕ → ℚ

/-- `tags.reduce((max, tag) => tag.intensity > max.intensity ? tag : max)`:
the dominant tag is the first tag of maximal intensity; `none` on an empty
tag list (the source only calls it behind a `tags.length > 0` guard). -/
def dominantTag : List EmotionTag → Option EmotionTag
  | [] => none
  | t :: ts => some (ts.foldl (fun m u => if u.intensity > m.intensity then u else m) t)

/-- The dominant tag's emotion, when the fragment has at least one tag. -/
def dominantEmotion (f : VideoFragment) : Option String :=
  (dominantTag f.tags).map (fun t => t.emotion)

/-- One entry of `emotionSequences` in `detectEmotionalCycles`. -/
structure SeqEntry where
  emotion : String
  timestamp : ℚ
  fragId : String
deriving DecidableEq

/-- The per-fragment dominant-emotion sequence (fragments with no tags are
skipped), in input order. -/
def emotionSeqOf (fs : List VideoFragment) : List SeqEntry :=
  fs.filterMap (fun f => (dominantTag f.tags).map (fun t => ⟨t.emotion, f.timestamp, f.id⟩))

/-- Every contiguous window of 3 emotions, joined with `-` (the source's
`slice(i, i+3).map(..).join('-')` over `i = 0 .. len-3`). -/
def cycleWindows : List String → List String
  | e0 :: e1 :: e2 :: rest => (e0 ++ "-" ++ e1 ++ "-" ++ e2) :: cycleWindows (e1 :: e2 :: rest)
  | _ => []

/-- The environment-independent payload of one `emotional_cycle` insight. -/
structure CycleCore where
  pattern : String
  count : ℕ
  related : List String
deriving DecidableEq

/-- The cycle patterns occurring at least twice, in first-occurrence order,
each with its occurrence count and with `relatedFragments` = every sequence
entry whose emotion is a substring of the joined pattern (the source's
`pattern.includes(seq.emotion)`). -/
def cycleCores (fs : List VideoFragment) : List CycleCore :=
  let seqs := emotionSeqOf fs
  let ws := cycleWindows (seqs.map (fun s => s.emotion))
  ((dedupFirst ws).filter (fun p => 2 ≤ ws.count p)).map (fun p =>
    ⟨p, ws.count p, (seqs.filter (fun s => strIncludes p s.emotion)).map (fun s => s.fragId)⟩)

/-- The cycle insight description: the joined pattern with each `-`
rendered as an arrow. -/
def cycleDesc (pattern : String) : String :=
  "Recurring emotional pattern: " ++ String.intercalate " → " (pattern.splitOn "-")

/-- `detectEmotionalCycles`: one insight per repeating 3-emotion window,
confidence `min(count / fragments.length, 0.9)`. -/
def detectEmotionalCycles (env : Env) (fs : List VideoFragment) : List PatternInsight :=
  (cycleCores fs).enum.map (fun p =>
    { id := "cycle-" ++ ratStr env.nowMs ++ "-" ++ ratStr (env.rand p.1)
      type := .emotional_cycle
      description := cycleDesc p.2.pattern
      confidence := min ((p.2.count : ℚ) / (fs.length : ℚ)) 0.9
      relatedFragments := p.2.related
      timestamp := env.nowMs })

/-- One emotion transition between adjacent time-sorted fragments. -/
structure Transition where
  fromE : String
  toE : String
  timeDiff : ℚ
  fromId : String
  toId : String
deriving DecidableEq

/-- The transitions of `detectTriggerPatterns`: for each adjacent pair in
which both fragments have tags and the dominant emotions differ, record
(from, to, elapsed, both ids). -/
def transitionsOf : List VideoFragment → List Transition
  | a :: b :: rest =>
    (match dominantTag a.tags, dominantTag b.tags with
     | some ta, some tb =>
       if ta.emotion ≠ tb.emotion then
         [⟨ta.emotion, tb.emotion, b.timestamp - a.timestamp, a.id, b.id⟩]
       else []
     | _, _ => []) ++ transitionsOf (b :: rest)
  | _ => []

/-- The `from->to` grouping key of a transition. -/
def transKey (t : Transition) : String := t.fromE ++ "->" ++ t.toE

/-- The environment-independent payload of one `trigger_pattern` insight. -/
structure TriggerCore where
  key : String
  size : ℕ
  avgDiff : ℚ
  related : List String
deriving DecidableEq

/-- Transition groups of size at least 2, in first-occurrence key order,
with mean elapsed time and both fragment ids of every member. -/
def triggerCores (fs : List VideoFragment) : List TriggerCore :=
  let ts := transitionsOf fs
  (dedupFirst (ts.map transKey)).filterMap (fun k =>
    let g := ts.filter (fun t => transKey t == k)
    if 2 ≤ g.length then
      some ⟨k, g.length, (g.map (fun t => t.timeDiff)).sum / (g.length : ℚ),
            (g.map (fun t => [t.fromId, t.toId])).flatten⟩
    else none)

/-- The trigger insight description, with the mean gap rendered in rounded
minutes as in the source. -/
def triggerDesc (key : String) (avgDiff : ℚ) : String :=
  "Frequent emotional shift: " ++ key ++ " (avg " ++ toString (jsRound (avgDiff / 60000)) ++
    " minutes apart)"

/-- `detectTriggerPatterns`: one insight per transition group of size ≥ 2,
confidence `min(group_size / 5, 0.8)`. -/
def detectTriggerPatterns (env : Env) (fs : List VideoFragment) : List PatternInsight :=
  (triggerCores fs).enum.map (fun p =>
    { id := "trigger-" ++ ratStr env.nowMs ++ "-" ++ ratStr (env.rand p.1)
      type := .trigger_pattern
      description := triggerDesc p.2.key p.2.avgDiff
      confidence := min ((p.2.size : ℚ) / 5) 0.8
      relatedFragments := p.2.related
      timestamp := env.nowMs })

/-- `calculateTrend`: least-squares slope of `values` over index, plus the
square of the source's Pearson-style correlation (see header note); both 0
when fewer than 2 values, correlation term 0 when a variance vanishes. -/
def calculateTrend (values : List ℚ) : ℚ × ℚ :=
  if values.length < 2 then (0, 0) else
  let n : ℚ := (values.length : ℚ)
  let xs : List ℚ := (List.range values.length).map (fun i => (i : ℚ))
  let meanX := xs.sum / n
  let meanY := values.sum / n
  let num := ((xs.zip values).map (fun p => (p.1 - meanX) * (p.2 - meanY))).sum
  let dx := (xs.map (fun x => (x - meanX) * (x - meanX))).sum
  let dy := (values.map (fun y => (y - meanY) * (y - meanY))).sum
  (if dx ≠ 0 then num / dx else 0, if dx * dy = 0 then 0 else num * num / (dx * dy))

/-- `detectGrowthTrends`: skip under 5 fragments; a `growth_trend` insight
for clarity and/or energy whenever the slope exceeds 0.1, with
`relatedFragments` = all fragment ids. -/
def detectGrowthTrends (env : Env) (fs : List VideoFragment) : List PatternInsight :=
  if fs.length < 5 then [] else
  let ct := calculateTrend (fs.map (fun f => f.metadata.clarity))
  let et := calculateTrend (fs.map (fun f => f.metadata.energy))
  (if ct.1 > 0.1 then
    [{ id := "growth-clarity-" ++ ratStr env.nowMs
       type := .growth_trend
       description := "Increasing self-clarity over time (" ++ ratStr ct.1 ++ " improvement rate)"
       confidence := ct.2
       relatedFragments := fs.map (fun f => f.id)
       timestamp := env.nowMs }]
   else []) ++
  (if et.1 > 0.1 then
    [{ id := "growth-energy-" ++ ratStr env.nowMs
       type := .growth_trend
       description := "Increasing energy levels over time (" ++ ratStr et.1 ++ " improvement rate)"
       confidence := et.2
       relatedFragments := fs.map (fun f => f.id)
       timestamp := env.nowMs }]
   else [])

/-- Mean resonance across a fragment's ratings, 0 when it has none. -/
def avgResonance (f : VideoFragment) : ℚ :=
  if f.ratings.length > 0
  then (f.ratings.map (fun r => r.resonance)).sum / (f.ratings.length : ℚ)
  else 0

/-- The high-resonance subset: fragments with mean resonance ≥ 4. -/
def highRated (fs : List VideoFragment) : List VideoFragment :=
  fs.filter (fun f => 4 ≤ avgResonance f)

/-- Every tag emotion of every subset fragment, with multiplicity
(the iteration domain of `findCommonEmotions`'s counting map). -/
def tagEmotionList (hs : List VideoFragment) : List String :=
  (hs.map (fun f => f.tags.map (fun t => t.emotion))).flatten

/-- `Math.ceil(fragments.length * 0.6)` in `findCommonEmotions`. -/
def emoThreshold (hs : List VideoFragment) : ℤ := ⌈(hs.length : ℚ) * 0.6⌉

/-- `Math.ceil(fragments.length * 0.5)` in `findCommonMoods`. -/
def moodThreshold (hs : List VideoFragment) : ℤ := ⌈(hs.length : ℚ) * 0.5⌉

/-- `findCommonEmotions`: emotions whose total tag-occurrence count across
the subset reaches the 60% ceiling threshold.  Note the count is over tag
occurrences: a fragment carrying an emotion twice contributes 2. -/
def findCommonEmotions (hs : List VideoFragment) : List String :=
  (dedupFirst (tagEmotionList hs)).filter
    (fun e => emoThreshold hs ≤ ((tagEmotionList hs).count e : ℤ))

/-- `findCommonMoods`: moods reaching the 50% ceiling threshold (each
fragment has exactly one mood, so this count is per fragment). -/
def findCommonMoods (hs : List VideoFragment) : List String :=
  (dedupFirst (hs.map (fun f => f.metadata.mood))).filter
    (fun mo => moodThreshold hs ≤ ((hs.map (fun f => f.metadata.mood)).count mo : ℤ))

/-- Description of the emotions `resonance_cluster` insight. -/
def resonanceEmotionsDesc (es : List String) : String :=
  "Strong resonance with " ++ String.intercalate ", " es ++ " emotional states"

/-- Description of the moods `resonance_cluster` insight. -/
def resonanceMoodsDesc (ms : List String) : String :=
  "Consistent positive response to " ++ String.intercalate ", " ms ++ " moods"

/-- `detectResonanceClusters`: with at least 3 high-resonance fragments,
one insight for common emotions (confidence 0.8) and one for common moods
(confidence 0.7) when the respective lists are non-empty, both related to
the whole subset. -/
def detectResonanceClusters (env : Env) (fs : List VideoFragment) : List PatternInsight :=
  let hs := highRated fs
  if 3 ≤ hs.length then
    (if (findCommonEmotions hs).length > 0 then
      [{ id := "resonance-emotions-" ++ ratStr env.nowMs
         type := .resonance_cluster
         description := resonanceEmotionsDesc (findCommonEmotions hs)
         confidence := 0.8
         relatedFragments := hs.map (fun f => f.id)
         timestamp := env.nowMs }]
     else []) ++
    (if (findCommonMoods hs).length > 0 then
      [{ id := "resonance-moods-" ++ ratStr env.nowMs
         type := .resonance_cluster
         description := resonanceMoodsDesc (findCommonMoods hs)
         confidence := 0.7
         relatedFragments := hs.map (fun f => f.id)
         timestamp := env.nowMs }]
     else [])
  else []

/-- The `sort((a, b) => a.timestamp - b.timestamp)` comparison (JS sort is
stable, as is insertion sort). -/
def tsLE (a b : VideoFragment) : Prop := a.timestamp ≤ b.timestamp

instance : DecidableRel tsLE := fun a b => inferInstanceAs (Decidable (a.timestamp ≤ b.timestamp))

instance : IsTotal VideoFragment tsLE := ⟨fun a b => le_total a.timestamp b.timestamp⟩

instance : IsTrans VideoFragment tsLE := ⟨fun _ _ _ h h' => le_trans h h'⟩

/-- `analyzeEmotionalPatterns`: sort by timestamp, then concatenate the
four sub-analyses -- note the source passes the unsorted collection to
`detectResonanceClusters`. -/
def analyzeEmotionalPatterns (env : Env) (fs : List VideoFragment) : List PatternInsight :=
  let sorted := List.insertionSort tsLE fs
  detectEmotionalCycles env sorted ++ detectTriggerPatterns env sorted ++
    detectGrowthTrends env sorted ++ detectResonanceClusters env fs

/-! ## Recommendation Engine (`generateRecommendations` and helpers) -/

/-- `calculateMoodScore`: 0.4·(mean resonance / 5, defaulting to 3 with no
ratings) + 0.4·(helpful fraction) + 0.2·(linear 30-day recency decay,
floored at 0). -/
def calculateMoodScore (env : Env) (f : VideoFragment) : ℚ :=
  let avgRating : ℚ :=
    if f.ratings.length > 0
    then (f.ratings.map (fun r => r.resonance)).sum / (f.ratings.length : ℚ)
    else 3
  let helpfulCount : ℚ := ((f.ratings.filter (fun r => r.helpful)).length : ℚ)
  let recency : ℚ := max 0 (1 - (env.nowMs - f.timestamp) / (30 * 24 * 60 * 60 * 1000))
  (avgRating / 5) * 0.4 + (helpfulCount / (max (f.ratings.length : ℚ) 1)) * 0.4 + recency * 0.2

/-- The mood-match strategy: fragments with the requested mood and at least
one helpful rating. -/
def moodMatches (env : Env) (currentMood : String) (fs : List VideoFragment) :
    List RecommendationMatch :=
  (fs.filter (fun f => f.metadata.mood == currentMood && f.ratings.any (fun r => r.helpful))).map
    (fun f =>
      { fragmentId := f.id
        score := calculateMoodScore env f
        reason := "Matches your current " ++ currentMood ++ " mood and has been helpful before"
        type := .mood_match })

/-- `findPatternCompletions`: for each `emotional_cycle` insight with
confidence above 0.6, every related fragment with a helpful rating at
score = confidence · 0.8.  (The source takes `currentMood` but ignores it.) -/
def findPatternCompletions (_currentMood : String) (fs : List VideoFragment)
    (patterns : List PatternInsight) : List RecommendationMatch :=
  (patterns.map (fun p =>
    if p.type = PType.emotional_cycle ∧ p.confidence > 0.6 then
      (fs.filter (fun f =>
        p.relatedFragments.contains f.id && f.ratings.any (fun r => r.helpful))).map
        (fun f =>
          { fragmentId := f.id
            score := p.confidence * 0.8
            reason := "Part of a recognized emotional pattern: " ++ p.description
            type := .pattern_completion })
    else [])).flatten

/-- The fixed `emotionOpposites` lookup table of `findContrastLearning`. -/
def emotionOpposites : String → List String
  | "anxious" => ["calm", "peaceful"]
  | "sad" => ["happy", "hopeful"]
  | "angry" => ["calm", "peaceful"]
  | "confused" => ["confident", "clear"]
  | "overwhelmed" => ["calm", "focused"]
  | "frustrated" => ["patient", "understanding"]
  | "lonely" => ["connected", "grateful"]
  | _ => []

/-- `findContrastLearning`: for moods present in the opposites table,
fragments with an opposite-set tag of intensity ≥ 6 and a helpful rating of
resonance ≥ 4, at the fixed score 0.7. -/
def findContrastLearning (currentMood : String) (fs : List VideoFragment) :
    List RecommendationMatch :=
  let opposite := emotionOpposites currentMood
  if opposite.length = 0 then [] else
  (fs.filter (fun f =>
    (f.tags.any (fun t => opposite.contains t.emotion && 6 ≤ t.intensity)) &&
    (f.ratings.any (fun r => r.helpful && 4 ≤ r.resonance)))).map
    (fun f =>
      { fragmentId := f.id
        score := 0.7
        reason := "Offers a contrasting perspective that has been helpful in the past"
        type := .contrast_learning })

/-- The `(b.clarity+b.energy) - (a.clarity+a.energy)` descending comparison
in `findGrowthOpportunities`. -/
def gradeGE (a b : VideoFragment) : Prop :=
  b.metadata.clarity + b.metadata.energy ≤ a.metadata.clarity + a.metadata.energy

instance : DecidableRel gradeGE := fun a b =>
  inferInstanceAs (Decidable (b.metadata.clarity + b.metadata.energy ≤
    a.metadata.clarity + a.metadata.energy))

/-- `findGrowthOpportunities`: fragments with clarity ≥ 8 or energy ≥ 8 and
a helpful rating, top 3 by clarity+energy, at the fixed score 0.6.  (The
source takes the insight list but ignores it.) -/
def findGrowthOpportunities (fs : List VideoFragment) (_patterns : List PatternInsight) :
    List RecommendationMatch :=
  (((fs.filter (fun f =>
      (8 ≤ f.metadata.clarity || 8 ≤ f.metadata.energy) &&
      f.ratings.any (fun r => r.helpful))).insertionSort gradeGE).take 3).map
    (fun f =>
      { fragmentId := f.id
        score := 0.6
        reason := "High clarity/energy fragment that could inspire growth"
        type := .growth_opportunity })

/-- The `(a, b) => b.score - a.score` descending comparison of the final
sort. -/
def scoreGE (a b : RecommendationMatch) : Prop := b.score ≤ a.score

instance : DecidableRel scoreGE := fun a b => inferInstanceAs (Decidable (b.score ≤ a.score))

instance : IsTotal RecommendationMatch scoreGE := ⟨fun a b => le_total b.score a.score⟩

instance : IsTrans RecommendationMatch scoreGE := ⟨fun _ _ _ h h' => le_trans h' h⟩

/-- `generateRecommendations`: pool the four strategies, sort by score
descending, truncate to 10. -/
def generateRecommendations (env : Env) (currentMood : String) (fs : List VideoFragment)
    (patterns : List PatternInsight) : List RecommendationMatch :=
  ((moodMatches env currentMood fs ++ findPatternCompletions currentMood fs patterns ++
      findContrastLearning currentMood fs ++
      findGrowthOpportunities fs patterns).insertionSort scoreGE).take 10

/-- Specified (not source) behaviour, for comparison with
`findCommonEmotions`: the number of subset fragments carrying at least one
tag of the given emotion -- each fragment counted at most once per
emotion. -/
def fragmentsWithEmotion (hs : List VideoFragment) (e : String) : ℕ :=
  (hs.filter (fun f => f.tags.any (fun t => t.emotion == e))).length

/-- Specified (not source) behaviour of the emotions resonance cluster,
following the claim's words: emotions appearing as a tag in at least 60% of
the subset's fragments, each fragment counted at most once per emotion. -/
def commonEmotionsSpecced (hs : List VideoFragment) : List String :=
  (dedupFirst (tagEmotionList hs)).filter
    (fun e => emoThreshold hs ≤ (fragmentsWithEmotion hs e : ℤ))

/-! ## Store lemmas -/

instance {ε α : Type} [DecidableEq ε] [DecidableEq α] : DecidableEq (Except ε α) := fun x y =>
  match x, y with
  | .ok a, .ok b =>
    if h : a = b then .isTrue (by rw [h]) else .isFalse (fun hc => h (Except.ok.inj hc))
  | .error e, .error e' =>
    if h : e = e' then .isTrue (by rw [h]) else .isFalse (fun hc => h (Except.error.inj hc))
  | .ok _, .error _ => .isFalse (fun hc => Except.noConfusion hc)
  | .error _, .ok _ => .isFalse (fun hc => Except.noConfusion hc)

/-- The fold of the blob writes of `saveFragment`. -/
def putBlobs (db : DB) (ps : List (String × Option Blob)) : DB :=
  ps.foldl (fun d p => putBlob d p.1 p.2) db

theorem putBlobs_frags (ps : List (String × Option Blob)) :
    ∀ db : DB, (putBlobs db ps).frags = db.frags := by
  induction ps with
  | nil => intro db; rfl
  | cons p ps ih => intro db; simpa [putBlobs, List.foldl_cons] using ih (putBlob db p.1 p.2)

theorem putBlobs_blobs_of_not_mem (ps : List (String × Option Blob)) :
    ∀ (db : DB) (k : String), k ∉ ps.map Prod.fst →
      (putBlobs db ps).blobs k = db.blobs k := by
  induction ps with
  | nil => intro db k _; rfl
  | cons p ps ih =>
    intro db k hk
    simp only [List.map_cons, List.mem_cons, not_or] at hk
    have h2 := ih (putBlob db p.1 p.2) k hk.2
    simp only [putBlobs, List.foldl_cons] at h2 ⊢
    rw [h2]
    simp [putBlob, hk.1]

theorem putBlobs_blobs_of_mem (ps : List (String × Option Blob)) :
    ∀ (db : DB) (k : String) (b : Option Blob), (ps.map Prod.fst).Nodup → (k, b) ∈ ps →
      (putBlobs db ps).blobs k = some b := by
  induction ps with
  | nil => intro db k b _ hm; cases hm
  | cons p ps ih =>
    intro db k b hnd hm
    simp only [List.map_cons, List.nodup_cons] at hnd
    rcases List.mem_cons.mp hm with h | h
    · cases h
      have hrest := putBlobs_blobs_of_not_mem ps (putBlob db k b) k hnd.1
      simp only [putBlobs, List.foldl_cons] at hrest ⊢
      rw [hrest]
      simp [putBlob]
    · simpa only [putBlobs, List.foldl_cons] using ih (putBlob db p.1 p.2) k b hnd.2 h

/-- The fold of the blob deletions of `deleteFragment`. -/
def delBlobs (db : DB) (ids : List String) : DB := ids.foldl delBlob db

theorem delBlobs_frags (ids : List String) : ∀ db : DB, (delBlobs db ids).frags = db.frags := by
  induction ids with
  | nil => intro db; rfl
  | cons i ids ih => intro db; simpa [delBlobs, List.foldl_cons] using ih (delBlob db i)

theorem delBlobs_blobs (ids : List String) :
    ∀ (db : DB) (r : String),
      (delBlobs db ids).blobs r = if r ∈ ids then none else db.blobs r := by
  induction ids with
  | nil => intro db r; simp [delBlobs]
  | cons i ids ih =>
    intro db r
    have h2 := ih (delBlob db i) r
    simp only [delBlobs, List.foldl_cons] at h2 ⊢
    rw [h2]
    by_cases hr : r ∈ ids
    · simp [hr, List.mem_cons]
    · by_cases hi : r = i
      · simp [hr, hi, delBlob]
      · simp [hr, hi, delBlob, List.mem_cons]

theorem saveFragmentOk_eq (db : DB) (f : VideoFragment) :
    saveFragmentOk db f = putFrag (putBlobs db (savePuts f)) (stripBlobs f) := by
  simp [saveFragmentOk, saveSteps, List.foldl_append, List.foldl_map, putBlobs, applyStep]

theorem payloadIds_eq_savePuts (f : VideoFragment) :
    (savePuts f).map Prod.fst = payloadIds f := by
  simp only [savePuts, payloadIds, List.map_cons, List.map_append, List.map_map]
  refine congrArg₂ _ rfl (congrArg₂ _ ?_ ?_) <;>
    exact List.map_congr_left fun _ _ => rfl

theorem rehydrate_stripBlobs (db : DB) (f : VideoFragment)
    (hown : getVideoBlob db f.id = f.blob)
    (hv : ∀ v ∈ f.variations, getVideoBlob db v.id = v.blob)
    (hr : ∀ r ∈ f.responses, getVideoBlob db r.id = r.blob) :
    rehydrate db (stripBlobs f) = f := by
  cases f with
  | mk id ts du bl th ti no tg va rs ra me =>
    simp only [rehydrate, stripBlobs, List.map_map]
    congr 1
    · conv_rhs => rw [← List.map_id va]
      refine List.map_congr_left fun v hvm => ?_
      have hb : getVideoBlob db v.id = v.blob := hv v hvm
      cases v with
      | mk vid vpid vft vfs vbl vts =>
        simp only [Function.comp_apply] at hb ⊢
        simp [hb]
    · conv_rhs => rw [← List.map_id rs]
      refine List.map_congr_left fun r hrm => ?_
      have hb : getVideoBlob db r.id = r.blob := hr r hrm
      cases r with
      | mk rid rpid rbl rts rrt rno =>
        simp only [Function.comp_apply] at hb ⊢
        simp [hb]

/-- The payload keys deleted by `deleteFragment`: the requested id, then
every variation's and every response's id from the stored record. -/
def deleteRefs (id : String) (m : VideoFragment) : List String :=
  id :: (m.variations.map (fun v => v.id) ++ m.responses.map (fun r => r.id))

theorem deleteFragmentOk_eq (db : DB) (id : String) (m : VideoFragment)
    (h : db.frags id = some m) :
    deleteFragmentOk db id = delFrag (delBlobs db (deleteRefs id m)) id := by
  simp only [deleteFragmentOk, h]
  simp [rehydrate, deleteRefs, delBlobs, List.foldl_cons, List.foldl_append, List.foldl_map]

/-- C1.  After a successful `saveFragment(f)` on an initialized store,
`getFragment(f.id)` returns a fragment equal to `f` in every field,
including the fragment's own, each variation's and each response's payload
content.  The hypothesis is the data model's id-uniqueness invariant: the
fragment's own id and its nested variation/response ids are pairwise
distinct (they key the blob store). -/
theorem save_get_roundtrip (db : DB) (f : VideoFragment) (h : (payloadIds f).Nodup) :
    getFragment (some (saveFragmentOk db f)) f.id = .ok (some f) := by
  have hnd : ((savePuts f).map Prod.fst).Nodup := by rw [payloadIds_eq_savePuts]; exact h
  have hget : ∀ k b, (k, b) ∈ savePuts f → getVideoBlob (saveFragmentOk db f) k = b := by
    intro k b hm
    have hb : (saveFragmentOk db f).blobs k = some b := by
      rw [saveFragmentOk_eq]
      exact putBlobs_blobs_of_mem _ _ _ _ hnd hm
    rw [getVideoBlob, hb]
  have hfr : (saveFragmentOk db f).frags f.id = some (stripBlobs f) := by
    rw [saveFragmentOk_eq]
    simp [putFrag, stripBlobs]
  have hre : rehydrate (saveFragmentOk db f) (stripBlobs f) = f := by
    refine rehydrate_stripBlobs _ _ (hget f.id f.blob (by simp [savePuts])) ?_ ?_
    · intro v hv
      refine hget v.id v.blob ?_
      exact List.mem_cons_of_mem _ (List.mem_append_left _ (List.mem_map_of_mem _ hv))
    · intro r hr
      refine hget r.id r.blob ?_
      exact List.mem_cons_of_mem _ (List.mem_append_right _ (List.mem_map_of_mem _ hr))
  simp [getFragment, getFragmentDB, hfr, hre]

def c1Frag : VideoFragment :=
  ⟨"a", 0, 1000, some 7, some "th", none, none, [⟨"calm", 5, 1, 0⟩],
   [⟨"v1", "a", "warm", [("temperature", 3/10)], some 8, 1⟩],
   [⟨"r1", "a", some 9, 2, "answer", none⟩],
   [⟨"ra1", "a", true, 5, 0, none⟩], ⟨"reflective", 5, 5, none, none, []⟩⟩

theorem save_get_roundtrip_witness :
    (payloadIds c1Frag).Nodup ∧
    getFragment (some (saveFragmentOk emptyDB c1Frag)) c1Frag.id = .ok (some c1Frag) :=
  ⟨by decide, save_get_roundtrip emptyDB c1Frag (by decide)⟩

def c2Meta : VideoFragment :=
  ⟨"a", 0, 1000, none, none, none, none, [], [], [], [], ⟨"reflective", 5, 5, none, none, []⟩⟩

def c2DB : DB := ⟨fun s => if s = "a" then some c2Meta else none, fun _ => none⟩

/-- C2 counterexample.  A store whose `fragments` record for `"a"`
references payload id `"a"` while the `videoBlobs` store is empty:
`getFragment` succeeds (returning the fragment with its payload `null`)
instead of failing with `PayloadMissing` -- `getVideoBlob` resolves a
missing record to `null` via `request.result?.blob || null`. -/
theorem missing_payload_get_succeeds :
    getFragment (some c2DB) "a" = .ok (some c2Meta) ∧
    c2DB.blobs "a" = none ∧
    getFragment (some c2DB) "a" ≠ .error StoreErr.payloadMissing := by decide

/-- C2 amended.  When a persisted metadata record references binary payload
ids absent from the blob store, `getFragment` does not fail: it returns the
fragment with every such payload reference resolved to `null` (own,
variations and responses alike). -/
theorem missing_payloads_nulled (db : DB) (id : String) (m : VideoFragment)
    (h : db.frags id = some m)
    (hmiss : ∀ r ∈ payloadIds m, db.blobs r = none) :
    getFragment (some db) id = .ok (some (rehydrate db m)) ∧
    (rehydrate db m).blob = none ∧
    (∀ v ∈ (rehydrate db m).variations, v.blob = none) ∧
    (∀ r ∈ (rehydrate db m).responses, r.blob = none) := by
  refine ⟨by simp [getFragment, getFragmentDB, h], ?_, ?_, ?_⟩
  · show getVideoBlob db m.id = none
    simp [getVideoBlob, hmiss m.id (by simp [payloadIds])]
  · intro v hv
    rw [rehydrate] at hv
    obtain ⟨v0, hv0, rfl⟩ := List.mem_map.mp hv
    show getVideoBlob db v0.id = none
    have : v0.id ∈ payloadIds m := by
      simp only [payloadIds, List.mem_cons, List.mem_append, List.mem_map]
      exact Or.inr (Or.inl ⟨v0, hv0, rfl⟩)
    simp [getVideoBlob, hmiss v0.id this]
  · intro r hr
    rw [rehydrate] at hr
    obtain ⟨r0, hr0, rfl⟩ := List.mem_map.mp hr
    show getVideoBlob db r0.id = none
    have : r0.id ∈ payloadIds m := by
      simp only [payloadIds, List.mem_cons, List.mem_append, List.mem_map]
      exact Or.inr (Or.inr ⟨r0, hr0, rfl⟩)
    simp [getVideoBlob, hmiss r0.id this]

theorem missing_payloads_nulled_witness :
    getFragment (some c2DB) "a" = .ok (some (rehydrate c2DB c2Meta)) ∧
    (rehydrate c2DB c2Meta).blob = none :=
  ⟨(missing_payloads_nulled c2DB "a" c2Meta (by decide) (by decide)).1,
   (missing_payloads_nulled c2DB "a" c2Meta (by decide) (by decide)).2.1⟩

def c3Old : VideoFragment :=
  ⟨"a", 0, 1000, some 1, none, none, none, [], [], [], [], ⟨"reflective", 5, 5, none, none, []⟩⟩

def c3New : VideoFragment := { c3Old with blob := some 2 }

def c3DB : DB := saveFragmentOk emptyDB c3Old

/-- C3 counterexample.  A previously valid record for `"a"` (payload
content 1) is re-saved with new payload content 2 and the save fails at
write index 1 -- the metadata write, the last of the 2 writes.  The
persisted state for `"a"` is NOT left unchanged: `getFragment` now
reconstructs the old record with the NEW payload, because the blob write
committed in its own transaction before the failure. -/
theorem failed_save_overwrites_payload :
    1 < (saveSteps c3New).length ∧
    getFragmentDB c3DB "a" = some c3Old ∧
    getFragmentDB (saveFragmentFailAt c3DB c3New 1) "a" = some c3New := by decide

/-- C3 amended.  A `saveFragment(f)` that fails at any write leaves the
fragment *metadata* store unchanged (the metadata record is written last),
but binary payload writes that completed before the failing write persist,
so the rehydrated payload content for that id may already have changed. -/
theorem failed_save_preserves_metadata (db : DB) (f : VideoFragment) (k : ℕ)
    (hk : k < (saveSteps f).length) :
    (saveFragmentFailAt db f k).frags = db.frags := by
  have hk' : k ≤ ((savePuts f).map (fun p => SaveStep.blobPut p.1 p.2)).length := by
    rw [saveSteps, List.length_append] at hk
    simpa using Nat.lt_succ_iff.mp hk
  rw [saveFragmentFailAt, saveSteps, List.take_append_of_le_length hk', ← List.map_take,
    List.foldl_map]
  exact putBlobs_frags _ db

theorem failed_save_preserves_metadata_witness :
    1 < (saveSteps c3New).length ∧
    (saveFragmentFailAt c3DB c3New 1).frags = c3DB.frags :=
  ⟨by decide, failed_save_preserves_metadata c3DB c3New 1 (by decide)⟩

/-- C9.  After `deleteFragment(id)` completes on an initialized store,
`getFragment(id)` yields the not-found result, and every binary payload
referenced by the stored record (own, each variation's, each response's) --
in particular every payload referenced exclusively by that fragment -- has
been removed from the blob store. -/
theorem delete_get_notFound (db : DB) (id : String) :
    getFragment (some (deleteFragmentOk db id)) id = .ok none ∧
    ∀ m, db.frags id = some m →
      ∀ r ∈ deleteRefs id m, (deleteFragmentOk db id).blobs r = none := by
  constructor
  · cases hm : db.frags id with
    | none => simp [getFragment, getFragmentDB, deleteFragmentOk, hm]
    | some m =>
      rw [deleteFragmentOk_eq db id m hm]
      simp [getFragment, getFragmentDB, delFrag]
  · intro m hm r hrm
    rw [deleteFragmentOk_eq db id m hm]
    show (delBlobs db (deleteRefs id m)).blobs r = none
    rw [delBlobs_blobs]
    simp [hrm]

def c9Frag : VideoFragment :=
  ⟨"a", 0, 1000, some 7, none, none, none, [],
   [⟨"v1", "a", "warm", [], some 8, 1⟩], [⟨"r1", "a", some 9, 2, "answer", none⟩],
   [], ⟨"reflective", 5, 5, none, none, []⟩⟩

def c9DB : DB := saveFragmentOk emptyDB c9Frag

theorem delete_get_notFound_witness :
    getFragment (some (deleteFragmentOk c9DB "a")) "a" = .ok none ∧
    (deleteFragmentOk c9DB "a").blobs "v1" = none :=
  ⟨(delete_get_notFound c9DB "a").1,
   (delete_get_notFound c9DB "a").2 (stripBlobs c9Frag) (by decide) "v1" (by decide)⟩

/-! ## Engine lemmas -/

theorem mem_dedupFirst {e : String} : ∀ {l : List String}, e ∈ dedupFirst l ↔ e ∈ l := by
  intro l
  induction l with
  | nil => simp [dedupFirst]
  | cons x xs ih =>
    by_cases hx : e = x <;> simp [dedupFirst, List.mem_filter, ih, hx]

theorem mem_detectEmotionalCycles_type (env : Env) (fs : List VideoFragment) :
    ∀ i ∈ detectEmotionalCycles env fs, i.type = PType.emotional_cycle := by
  intro i hi
  simp only [detectEmotionalCycles, List.mem_map] at hi
  obtain ⟨p, _, rfl⟩ := hi
  rfl

theorem mem_detectTriggerPatterns_type (env : Env) (fs : List VideoFragment) :
    ∀ i ∈ detectTriggerPatterns env fs, i.type = PType.trigger_pattern := by
  intro i hi
  simp only [detectTriggerPatterns, List.mem_map] at hi
  obtain ⟨p, _, rfl⟩ := hi
  rfl

theorem mem_detectGrowthTrends_type (env : Env) (fs : List VideoFragment) :
    ∀ i ∈ detectGrowthTrends env fs, i.type = PType.growth_trend := by
  intro i hi
  simp only [detectGrowthTrends] at hi
  split at hi
  · cases hi
  · rcases List.mem_append.mp hi with h | h <;>
      (split at h
       · rw [List.mem_singleton.mp h]
       · cases h)

theorem mem_detectResonanceClusters_type (env : Env) (fs : List VideoFragment) :
    ∀ i ∈ detectResonanceClusters env fs, i.type = PType.resonance_cluster := by
  intro i hi
  simp only [detectResonanceClusters] at hi
  split at hi
  · rcases List.mem_append.mp hi with h | h <;>
      (split at h
       · rw [List.mem_singleton.mp h]
       · cases h)
  · cases hi

theorem filter_analyze_cycles (env : Env) (fs : List VideoFragment) :
    (analyzeEmotionalPatterns env fs).filter (fun i => decide (i.type = PType.emotional_cycle)) =
      detectEmotionalCycles env (List.insertionSort tsLE fs) := by
  simp only [analyzeEmotionalPatterns, List.filter_append]
  rw [List.filter_eq_self.mpr, List.filter_eq_nil_iff.mpr, List.filter_eq_nil_iff.mpr,
    List.filter_eq_nil_iff.mpr]
  · simp
  · intro i hi
    simp [mem_detectResonanceClusters_type env fs i hi]
  · intro i hi
    simp [mem_detectGrowthTrends_type env _ i hi]
  · intro i hi
    simp [mem_detectTriggerPatterns_type env _ i hi]
  · intro i hi
    simp [mem_detectEmotionalCycles_type env _ i hi]

theorem cycles_proj (env : Env) (fs : List VideoFragment) :
    (detectEmotionalCycles env fs).map (fun i => (i.description, i.relatedFragments)) =
      (cycleCores fs).map (fun c => (cycleDesc c.pattern, c.related)) := by
  conv_rhs => rw [← List.enum_map_snd (cycleCores fs)]
  rw [detectEmotionalCycles, List.map_map, List.map_map]
  rfl

/-- C8.  Cycle detection is deterministic: the `emotional_cycle` insights of
two analysis runs over the same fragment collection agree in description
and related-fragment set whatever the environment (`Date.now` /
`Math.random`) supplies -- the environment only enters the generated ids
and generation timestamps. -/
theorem cycle_detection_deterministic (e1 e2 : Env) (fs : List VideoFragment) :
    ((analyzeEmotionalPatterns e1 fs).filter
        (fun i => decide (i.type = PType.emotional_cycle))).map
      (fun i => (i.description, i.relatedFragments)) =
    ((analyzeEmotionalPatterns e2 fs).filter
        (fun i => decide (i.type = PType.emotional_cycle))).map
      (fun i => (i.description, i.relatedFragments)) := by
  rw [filter_analyze_cycles, filter_analyze_cycles, cycles_proj, cycles_proj]

/-- C7.  For every mood, fragment collection and insight list,
`generateRecommendations` returns at most 10 entries, sorted by
non-increasing score (`scoreGE a b` is `b.score ≤ a.score`). -/
theorem recommendations_le10_sorted (env : Env) (mood : String) (fs : List VideoFragment)
    (patterns : List PatternInsight) :
    (generateRecommendations env mood fs patterns).length ≤ 10 ∧
    (generateRecommendations env mood fs patterns).Sorted scoreGE := by
  constructor
  · rw [generateRecommendations]
    exact List.length_take_le 10 _
  · rw [generateRecommendations]
    exact (List.sorted_insertionSort scoreGE _).sublist (List.take_sublist _ _)

/-- C5.  For any 3 time-sorted fragments whose dominant emotions are calm,
anxious, calm, analysis yields zero `emotional_cycle` insights (the single
3-emotion window occurs once, below the ≥ 2 threshold) and zero
`trigger_pattern` insights (the transitions calm→anxious and anxious→calm
each occur once, below the ≥ 2 group-size threshold). -/
theorem three_frag_below_thresholds (env : Env) (f0 f1 f2 : VideoFragment)
    (h01 : f0.timestamp < f1.timestamp) (h12 : f1.timestamp < f2.timestamp)
    (he0 : dominantEmotion f0 = some "calm") (he1 : dominantEmotion f1 = some "anxious")
    (he2 : dominantEmotion f2 = some "calm") :
    (analyzeEmotionalPatterns env [f0, f1, f2]).filter
      (fun i => decide (i.type = PType.emotional_cycle)) = [] ∧
    (analyzeEmotionalPatterns env [f0, f1, f2]).filter
      (fun i => decide (i.type = PType.trigger_pattern)) = [] := by
  obtain ⟨t0, ht0, he0'⟩ := Option.map_eq_some'.mp he0
  obtain ⟨t1, ht1, he1'⟩ := Option.map_eq_some'.mp he1
  obtain ⟨t2, ht2, he2'⟩ := Option.map_eq_some'.mp he2
  have hsort : List.insertionSort tsLE [f0, f1, f2] = [f0, f1, f2] := by
    refine List.Sorted.insertionSort_eq ?_
    refine List.sorted_cons.mpr ⟨?_, List.sorted_cons.mpr ⟨?_, List.sorted_singleton _⟩⟩
    · intro b hb
      rcases List.mem_cons.mp hb with rfl | hb
      · exact le_of_lt h01
      · rw [List.mem_singleton.mp hb]
        exact le_of_lt (h01.trans h12)
    · intro b hb
      rw [List.mem_singleton.mp hb]
      exact le_of_lt h12
  have hseq : emotionSeqOf [f0, f1, f2] =
      [⟨"calm", f0.timestamp, f0.id⟩, ⟨"anxious", f1.timestamp, f1.id⟩,
       ⟨"calm", f2.timestamp, f2.id⟩] := by
    simp [emotionSeqOf, ht0, ht1, ht2, he0', he1', he2']
  have hws : cycleWindows ((emotionSeqOf [f0, f1, f2]).map (fun s => s.emotion)) =
      ["calm-anxious-calm"] := by
    rw [hseq]
    rfl
  have hcore : cycleCores [f0, f1, f2] = [] := by
    simp only [cycleCores]
    rw [hws]
    rfl
  have hcyc : detectEmotionalCycles env [f0, f1, f2] = [] := by
    rw [detectEmotionalCycles, hcore]
    rfl
  have hne01 : t0.emotion ≠ t1.emotion := by rw [he0', he1']; decide
  have hne12 : t1.emotion ≠ t2.emotion := by rw [he1', he2']; decide
  have htr : transitionsOf [f0, f1, f2] =
      [⟨t0.emotion, t1.emotion, f1.timestamp - f0.timestamp, f0.id, f1.id⟩,
       ⟨t1.emotion, t2.emotion, f2.timestamp - f1.timestamp, f1.id, f2.id⟩] := by
    simp [transitionsOf, ht0, ht1, ht2, hne01, hne12]
  have htc : triggerCores [f0, f1, f2] = [] := by
    simp only [triggerCores]
    rw [htr, he0', he1', he2']
    rfl
  have htrg : detectTriggerPatterns env [f0, f1, f2] = [] := by
    rw [detectTriggerPatterns, htc]
    rfl
  have hgr : detectGrowthTrends env [f0, f1, f2] = [] := by
    rw [detectGrowthTrends]
    simp
  have hanal : analyzeEmotionalPatterns env [f0, f1, f2] =
      detectResonanceClusters env [f0, f1, f2] := by
    rw [analyzeEmotionalPatterns, hsort, hcyc, htrg, hgr]
    simp
  constructor <;> rw [hanal] <;> rw [List.filter_eq_nil_iff] <;> intro i hi <;>
    simp [mem_detectResonanceClusters_type env _ i hi]

def c5Env : Env := ⟨0, fun _ => 0⟩

def c5FragA : VideoFragment :=
  ⟨"g1", 0, 1000, some 1, none, none, none, [⟨"calm", 5, 1, 0⟩], [], [], [],
   ⟨"reflective", 5, 5, none, none, []⟩⟩

def c5FragB : VideoFragment :=
  ⟨"g2", 600000, 1000, some 1, none, none, none, [⟨"anxious", 5, 1, 0⟩], [], [], [],
   ⟨"reflective", 5, 5, none, none, []⟩⟩

def c5FragC : VideoFragment :=
  ⟨"g3", 1200000, 1000, some 1, none, none, none, [⟨"calm", 5, 1, 0⟩], [], [], [],
   ⟨"reflective", 5, 5, none, none, []⟩⟩

theorem three_frag_below_thresholds_witness :
    (analyzeEmotionalPatterns c5Env [c5FragA, c5FragB, c5FragC]).filter
      (fun i => decide (i.type = PType.emotional_cycle)) = [] ∧
    (analyzeEmotionalPatterns c5Env [c5FragA, c5FragB, c5FragC]).filter
      (fun i => decide (i.type = PType.trigger_pattern)) = [] :=
  three_frag_below_thresholds c5Env c5FragA c5FragB c5FragC (by decide) (by decide)
    (by decide) (by decide) (by decide)

def c6Env : Env := ⟨0, fun _ => 0⟩

def c6Frag (id : String) (ts clarity : ℚ) : VideoFragment :=
  ⟨id, ts, 1000, some 1, none, none, none, [], [], [], [],
   ⟨"reflective", 5, clarity, none, none, []⟩⟩

def c6Frags : List VideoFragment :=
  [c6Frag "f1" 86400000 3, c6Frag "f2" 172800000 4, c6Frag "f3" 259200000 5,
   c6Frag "f4" 345600000 7, c6Frag "f5" 432000000 9]

/-- C6.  Five fragments dated day 1..5 with clarity 3,4,5,7,9, no tags, no
ratings, all other fields default: analysis returns exactly one insight --
a clarity `growth_trend` (slope 3/2 > 0.1) whose `relatedFragments` are all
five ids -- and zero insights of the other three types (energy is constant,
no tags, no ratings). -/
theorem clarity_growth_end_to_end :
    (analyzeEmotionalPatterns c6Env c6Frags).map
      (fun i => (i.type, i.description, i.relatedFragments)) =
      [(PType.growth_trend, "Increasing self-clarity over time (" ++ ratStr (3/2) ++
        " improvement rate)", ["f1", "f2", "f3", "f4", "f5"])] := by
  norm_num [analyzeEmotionalPatterns, detectEmotionalCycles, detectTriggerPatterns,
    detectGrowthTrends, detectResonanceClusters, cycleCores, triggerCores, emotionSeqOf,
    transitionsOf, cycleWindows, dedupFirst, calculateTrend, highRated, avgResonance,
    findCommonEmotions, findCommonMoods, tagEmotionList, emoThreshold, moodThreshold,
    dominantTag, c6Frags, c6Frag, c6Env, List.insertionSort, List.orderedInsert, tsLE,
    (show List.range 5 = [0,1,2,3,4] from rfl)]

def c4Env : Env := ⟨0, fun _ => 0⟩

def c4FragA : VideoFragment :=
  ⟨"a", 0, 1000, some 1, none, none, none, [⟨"calm", 5, 1, 0⟩, ⟨"calm", 7, 1, 0⟩], [], [],
   [⟨"a-r", "a", true, 5, 0, none⟩], ⟨"m1", 5, 5, none, none, []⟩⟩

def c4FragB : VideoFragment :=
  ⟨"b", 1, 1000, some 1, none, none, none, [], [], [],
   [⟨"b-r", "b", true, 5, 0, none⟩], ⟨"m2", 5, 5, none, none, []⟩⟩

def c4FragC : VideoFragment :=
  ⟨"c", 2, 1000, some 1, none, none, none, [], [], [],
   [⟨"c-r", "c", true, 5, 0, none⟩], ⟨"m3", 5, 5, none, none, []⟩⟩

def c4Frags : List VideoFragment := [c4FragA, c4FragB, c4FragC]

/-- C4 counterexample.  All 3 fragments have mean resonance 5 ≥ 4, so the
high-resonance subset is the whole collection and the threshold is
ceil(3·0.6) = 2.  "calm" appears as a tag on only 1 of the 3 fragments
(33% < 60%), yet its two tag occurrences on that one fragment reach the
threshold, so the code reports a "calm" resonance cluster -- under the
claim's per-fragment counting (`commonEmotionsSpecced`) no emotion
qualifies. -/
theorem resonance_counts_tags_not_fragments :
    highRated c4Frags = c4Frags ∧
    findCommonEmotions (highRated c4Frags) = ["calm"] ∧
    fragmentsWithEmotion (highRated c4Frags) "calm" = 1 ∧
    commonEmotionsSpecced (highRated c4Frags) = [] ∧
    (detectResonanceClusters c4Env c4Frags).map (fun i => i.description) =
      ["Strong resonance with calm emotional states"] := by
  norm_num [detectResonanceClusters, highRated, avgResonance, findCommonEmotions,
    findCommonMoods, tagEmotionList, emoThreshold, moodThreshold, dedupFirst,
    fragmentsWithEmotion, commonEmotionsSpecced, resonanceEmotionsDesc, resonanceMoodsDesc,
    c4Frags, c4FragA, c4FragB, c4FragC, c4Env, String.intercalate,
    (show (⌈(9:ℚ)/5⌉:ℤ) = 2 from by rw [Int.ceil_eq_iff]; norm_num),
    (show (⌈(3:ℚ)/2⌉:ℤ) = 2 from by rw [Int.ceil_eq_iff]; norm_num)]
  decide

/-- C4 amended.  For a high-resonance subset of at least 3 fragments, the
emotions reported by `findCommonEmotions` (and hence listed in the emotions
`resonance_cluster` insight) are exactly those whose total tag-occurrence
count across the subset reaches ceil(0.6·n) -- each tag occurrence counts,
so a fragment carrying an emotion several times contributes several times;
and the emotions insight (the one with confidence 0.8 relating the whole
subset) is emitted iff that list is non-empty. -/
theorem common_emotions_iff_tag_count (env : Env) (fs : List VideoFragment) (e : String)
    (h3 : 3 ≤ (highRated fs).length) :
    (e ∈ findCommonEmotions (highRated fs) ↔
      emoThreshold (highRated fs) ≤ ((tagEmotionList (highRated fs)).count e : ℤ)) ∧
    ((∃ i ∈ detectResonanceClusters env fs, i.confidence = 0.8 ∧
        i.description = resonanceEmotionsDesc (findCommonEmotions (highRated fs)) ∧
        i.relatedFragments = (highRated fs).map (fun f => f.id)) ↔
      findCommonEmotions (highRated fs) ≠ []) := by
  constructor
  · rw [findCommonEmotions]
    rw [List.mem_filter]
    constructor
    · rintro ⟨-, hc⟩
      exact of_decide_eq_true hc
    · intro hc
      refine ⟨mem_dedupFirst.mpr ?_, decide_eq_true hc⟩
      have hpos : 0 < emoThreshold (highRated fs) := by
        rw [emoThreshold, Int.ceil_pos]
        have : (3:ℚ) ≤ ((highRated fs).length : ℚ) := by exact_mod_cast h3
        nlinarith
      have : 0 < (tagEmotionList (highRated fs)).count e := by
        have := lt_of_lt_of_le hpos hc
        exact_mod_cast this
      exact List.count_pos_iff.mp this
  · rw [detectResonanceClusters]
    rw [if_pos h3]
    constructor
    · rintro ⟨i, hi, hcf, hds, -⟩
      rcases List.mem_append.mp hi with h | h
      · intro hnil
        rw [hnil] at h
        simp at h
      · revert h
        split
        · intro h
          rw [List.mem_singleton.mp h] at hcf
          norm_num at hcf
        · intro h
          cases h
    · intro hne
      have hlen : (findCommonEmotions (highRated fs)).length > 0 :=
        List.length_pos.mpr hne
      rw [if_pos hlen]
      exact ⟨_, List.mem_append_left _ (List.mem_singleton_self _), rfl, rfl, rfl⟩

theorem common_emotions_iff_tag_count_witness :
    "calm" ∈ findCommonEmotions (highRated c4Frags) :=
  (common_emotions_iff_tag_count c4Env c4Frags "calm"
      (by norm_num [highRated, avgResonance, c4Frags, c4FragA, c4FragB, c4FragC])).1.mpr
    (by norm_num [highRated, avgResonance, c4Frags, c4FragA, c4FragB, c4FragC, emoThreshold,
      tagEmotionList, List.count_cons,
      (show (⌈(9:ℚ)/5⌉:ℤ) = 2 from by rw [Int.ceil_eq_iff]; norm_num)])

theorem calculateMoodScore_bounds (env : Env) (f : VideoFragment)
    (hres : ∀ r ∈ f.ratings, 0 ≤ r.resonance ∧ r.resonance ≤ 5)
    (hts : f.timestamp ≤ env.nowMs) :
    0 ≤ calculateMoodScore env f ∧ calculateMoodScore env f ≤ 1 := by
  have hA : 0 ≤ (if f.ratings.length > 0
      then (f.ratings.map (fun r => r.resonance)).sum / (f.ratings.length : ℚ) else 3) ∧
      (if f.ratings.length > 0
      then (f.ratings.map (fun r => r.resonance)).sum / (f.ratings.length : ℚ) else 3) ≤ 5 := by
    split
    · next hpos =>
      have hlen : (0:ℚ) < (f.ratings.length : ℚ) := by exact_mod_cast hpos
      have hsum0 : 0 ≤ (f.ratings.map (fun r => r.resonance)).sum := by
        refine List.sum_nonneg ?_
        intro x hx
        obtain ⟨r, hr, rfl⟩ := List.mem_map.mp hx
        exact (hres r hr).1
      have hsum5 : (f.ratings.map (fun r => r.resonance)).sum ≤ (f.ratings.length : ℚ) * 5 := by
        have h5 := List.sum_le_card_nsmul (f.ratings.map (fun r => r.resonance)) 5 ?_
        · simpa [nsmul_eq_mul] using h5
        · intro x hx
          obtain ⟨r, hr, rfl⟩ := List.mem_map.mp hx
          exact (hres r hr).2
      constructor
      · exact div_nonneg hsum0 (le_of_lt hlen)
      · rw [div_le_iff₀ hlen]
        linarith
    · norm_num
  have hmax : (0:ℚ) < max (f.ratings.length : ℚ) 1 :=
    lt_of_lt_of_le zero_lt_one (le_max_right _ _)
  have hF : 0 ≤ ((f.ratings.filter (fun r => r.helpful)).length : ℚ) /
      (max (f.ratings.length : ℚ) 1) ∧
      ((f.ratings.filter (fun r => r.helpful)).length : ℚ) /
      (max (f.ratings.length : ℚ) 1) ≤ 1 := by
    constructor
    · exact div_nonneg (by positivity) (le_of_lt hmax)
    · rw [div_le_one hmax]
      have hle : ((f.ratings.filter (fun r => r.helpful)).length : ℚ) ≤
          (f.ratings.length : ℚ) := by
        exact_mod_cast List.length_filter_le _ _
      exact le_trans hle (le_max_left _ _)
  have hR : 0 ≤ max 0 (1 - (env.nowMs - f.timestamp) / (30 * 24 * 60 * 60 * 1000)) ∧
      max 0 (1 - (env.nowMs - f.timestamp) / (30 * 24 * 60 * 60 * 1000)) ≤ 1 := by
    constructor
    · exact le_max_left _ _
    · refine max_le (by norm_num) ?_
      have h1 : 0 ≤ (env.nowMs - f.timestamp) / (30 * 24 * 60 * 60 * 1000) := by
        refine div_nonneg ?_ (by norm_num)
        linarith
      linarith
  simp only [calculateMoodScore]
  constructor <;> nlinarith [hA.1, hA.2, hF.1, hF.2, hR.1, hR.2]

def c10Env : Env := ⟨0, fun _ => 0⟩

def c10Frag : VideoFragment :=
  ⟨"x", 25920000000, 1000, some 1, none, none, none, [], [], [],
   [⟨"r1", "x", true, 5, 0, none⟩], ⟨"reflective", 5, 5, none, none, []⟩⟩

/-- C10 counterexample.  A fragment whose creation timestamp lies 300 days
in the future of `Date.now()` satisfies every hypothesis of the claim (its
one rating has resonance 5 ∈ [0,5]; the supplied insight list is empty),
yet its mood-match recommendation scores 3: the recency term
`max(0, 1 - (now - ts)/30d)` evaluates to 11, so the "0.4+0.4+0.2 convex
combination" bound fails without a no-future-timestamps hypothesis. -/
theorem future_fragment_score_exceeds_one :
    (c10Frag.ratings.all fun r => decide (0 ≤ r.resonance) && decide (r.resonance ≤ 5)) = true ∧
    (generateRecommendations c10Env "reflective" [c10Frag] []).map (fun m => m.score) = [3] ∧
    ¬ ((3:ℚ) ≤ 1) := by
  refine ⟨by decide, ?_, by norm_num⟩
  norm_num [generateRecommendations, moodMatches, findPatternCompletions,
    findContrastLearning, findGrowthOpportunities, emotionOpposites, calculateMoodScore,
    c10Frag, c10Env, List.insertionSort, List.orderedInsert, scoreGE, gradeGE]

/-- C10 amended.  Provided every rating's resonance lies in [0,5], every
supplied insight's confidence lies in [0,1], and additionally no fragment's
creation timestamp lies in the future of `Date.now()`, every returned
recommendation score lies in [0,1] (mood-match is a 0.4+0.4+0.2 bounded
combination, pattern completion is confidence·0.8, contrast and growth are
the constants 0.7 and 0.6). -/
theorem recommendation_scores_unit_interval (env : Env) (mood : String)
    (fs : List VideoFragment) (patterns : List PatternInsight)
    (hres : ∀ f ∈ fs, ∀ r ∈ f.ratings, 0 ≤ r.resonance ∧ r.resonance ≤ 5)
    (hconf : ∀ p ∈ patterns, 0 ≤ p.confidence ∧ p.confidence ≤ 1)
    (hts : ∀ f ∈ fs, f.timestamp ≤ env.nowMs) :
    ∀ m ∈ generateRecommendations env mood fs patterns, 0 ≤ m.score ∧ m.score ≤ 1 := by
  intro m hm
  have hpool : m ∈ moodMatches env mood fs ++ findPatternCompletions mood fs patterns ++
      findContrastLearning mood fs ++ findGrowthOpportunities fs patterns := by
    rw [generateRecommendations] at hm
    exact (List.perm_insertionSort scoreGE _).subset (List.take_subset 10 _ hm)
  rcases List.mem_append.mp hpool with h123 | h4
  · rcases List.mem_append.mp h123 with h12 | h3
    · rcases List.mem_append.mp h12 with h1 | h2
      · obtain ⟨f, hf, rfl⟩ := List.mem_map.mp h1
        have hfs : f ∈ fs := List.mem_of_mem_filter hf
        exact calculateMoodScore_bounds env f (hres f hfs) (hts f hfs)
      · rw [findPatternCompletions] at h2
        obtain ⟨l, hl, hml⟩ := List.mem_flatten.mp h2
        obtain ⟨p, hp, rfl⟩ := List.mem_map.mp hl
        by_cases hc : p.type = PType.emotional_cycle ∧ p.confidence > 0.6
        · rw [if_pos hc] at hml
          obtain ⟨f, -, rfl⟩ := List.mem_map.mp hml
          obtain ⟨h0, h1⟩ := hconf p hp
          constructor
          · show 0 ≤ p.confidence * 0.8
            nlinarith
          · show p.confidence * 0.8 ≤ 1
            nlinarith
        · rw [if_neg hc] at hml
          cases hml
    · simp only [findContrastLearning] at h3
      by_cases ho : (emotionOpposites mood).length = 0
      · rw [if_pos ho] at h3
        cases h3
      · rw [if_neg ho] at h3
        obtain ⟨f, -, rfl⟩ := List.mem_map.mp h3
        constructor
        · show (0:ℚ) ≤ 0.7
          norm_num
        · show (0.7:ℚ) ≤ 1
          norm_num
  · rw [findGrowthOpportunities] at h4
    obtain ⟨f, -, rfl⟩ := List.mem_map.mp h4
    constructor
    · show (0:ℚ) ≤ 0.6
      norm_num
    · show (0.6:ℚ) ≤ 1
      norm_num

def c10GoodEnv : Env := ⟨86400000, fun _ => 0⟩

def c10GoodFrag : VideoFragment :=
  ⟨"y", 0, 1000, some 1, none, none, none, [], [], [],
   [⟨"r1", "y", true, 4, 0, none⟩], ⟨"reflective", 5, 5, none, none, []⟩⟩

theorem recommendation_scores_unit_interval_witness :
    0 ≤ ((generateRecommendations c10GoodEnv "reflective" [c10GoodFrag] []).headD
      ⟨"", 0, "", RType.mood_match⟩).score ∧
    ((generateRecommendations c10GoodEnv "reflective" [c10GoodFrag] []).headD
      ⟨"", 0, "", RType.mood_match⟩).score ≤ 1 := by
  refine recommendation_scores_unit_interval c10GoodEnv "reflective" [c10GoodFrag] []
    (by decide) (by decide) (by decide) _ ?_
  norm_num [generateRecommendations, moodMatches, findPatternCompletions,
    findContrastLearning, findGrowthOpportunities, emotionOpposites, calculateMoodScore,
    c10GoodFrag, c10GoodEnv, List.insertionSort, List.orderedInsert, scoreGE, gradeGE]
